import Mathlib

/-!
A verification development for the go-web-crawler sitemap builder.

Shallow embedding of `crawler.go`: the page store (`Sitemap`), the host filter
(`Crawler.shouldFollowUrl`), the HTML asset extractor (`tokenizeAndCrawlElements`),
the per-page task (`crawlPage`) and the event loop of `Crawler.CrawlWebsite`.

Go strings are embedded as `String`; the functions of package `strings` that the
crawler calls are written on the character list of the string.  The channels of
the program are embedded as explicit event lists: a task is a function to the
list of events it sends, in program order, and the loop of `CrawlWebsite` is a
fold over the events it receives.
-/

namespace GoWebCrawler

/-! ## Data model (crawler.go, lines 13-38) -/

/-- The Go type `PageAssetType`, a string type. -/
abbrev PageAssetType := String

/-- The constant `Stylesheet`. -/
def Stylesheet : PageAssetType := "stylesheet"

/-- The constant `Image`. -/
def Image : PageAssetType := "image"

/-- The constant `Script`. -/
def Script : PageAssetType := "script"

/-- The Go struct `PageAsset`; its field `Type` is written `Typ`. -/
structure PageAsset where
  Typ : PageAssetType
  URL : String
  deriving DecidableEq, Repr

/-- The zero value `PageAsset{}`: both fields are the empty string. -/
def PageAsset.zero : PageAsset := ⟨"", ""⟩

/-- The Go struct `Page`. -/
structure Page where
  URL : String
  Assets : List PageAsset
  deriving DecidableEq, Repr

/-- The Go struct `Sitemap`. -/
structure Sitemap where
  Pages : List Page
  deriving DecidableEq, Repr

/-- The function `NewSitemap`: a sitemap with no page. -/
def NewSitemap : Sitemap := ⟨[]⟩

/-! ## The functions of package `strings` used by the crawler -/

/-- The function `strings.HasPrefix s p`: `s` begins with `p`. -/
def HasPrefix (s p : String) : Bool := p.data.isPrefixOf s.data

/-- The function `strings.TrimRight s cutset`: `s` without its trailing
characters that occur in `cutset`. -/
def TrimRight (s cutset : String) : String :=
  ⟨(s.data.reverse.dropWhile (fun c => cutset.data.contains c)).reverse⟩

/-! ## The page store (crawler.go, lines 40-58) -/

/-- The function `NewPageWithAssets`. -/
def NewPageWithAssets (url : String) (assets : List PageAsset) : Page :=
  { URL := TrimRight url "/", Assets := assets }

/-- The method `Sitemap.AddPage`: an unconditional `append`. -/
def Sitemap.AddPage (s : Sitemap) (page : Page) : Sitemap :=
  { Pages := s.Pages ++ [page] }

/-- The loop of `Sitemap.HasPage` over a slice of pages. -/
def hasPageLoop (url : String) : List Page → Bool
  | [] => false
  | page :: rest => if page.URL = url then true else hasPageLoop url rest

/-- The method `Sitemap.HasPage`. -/
def Sitemap.HasPage (s : Sitemap) (url : String) : Bool :=
  hasPageLoop url s.Pages

/-! ## HTML tokens (package `golang.org/x/net/html`) -/

/-- The token types of the HTML tokenizer. -/
inductive TokenType where
  | ErrorToken
  | TextToken
  | StartTagToken
  | EndTagToken
  | SelfClosingTagToken
  | CommentToken
  | DoctypeToken
  deriving DecidableEq, Repr

/-- The struct `html.Attribute`. -/
structure Attribute where
  Namespace : String
  Key : String
  Val : String
  deriving DecidableEq, Repr

/-- The struct `html.Token`, without the `DataAtom` field, which the crawler
does not read; its field `Type` is written `Typ`. -/
structure Token where
  Typ : TokenType
  Data : String
  Attr : List Attribute
  deriving DecidableEq, Repr

/-! ## Attribute lookup and tag tests (crawler.go, lines 174-211) -/

/-- The loop of `getHtmlAttribute`: `value` is the named result, overwritten
at every attribute whose key is `name`. -/
def getHtmlAttributeLoop (name : String) (value : String) : List Attribute → String
  | [] => value
  | a :: rest =>
    if a.Key = name then getHtmlAttributeLoop name a.Val rest
    else getHtmlAttributeLoop name value rest

/-- The function `getHtmlAttribute`: the named result starts as the empty
string. -/
def getHtmlAttribute (t : Token) (name : String) : String :=
  getHtmlAttributeLoop name "" t.Attr

/-- The function `isTag`. -/
def isTag (token : Token) (tag : String) : Bool :=
  decide (token.Data = tag)

/-- The function `isStylesheetTag`. -/
def isStylesheetTag (token : Token) : Bool :=
  isTag token "link" && decide (getHtmlAttribute token "rel" = "stylesheet")

/-- The function `isScriptTag`. -/
def isScriptTag (token : Token) : Bool :=
  isTag token "script" && decide (getHtmlAttribute token "src" ≠ "")

/-- The function `parseAssetFromToken`: the zero `PageAsset` when the attribute
is missing or empty. -/
def parseAssetFromToken (token : Token) (attrName : String) (assetType : PageAssetType) :
    PageAsset :=
  if getHtmlAttribute token attrName ≠ "" then
    { Typ := assetType, URL := getHtmlAttribute token attrName }
  else PageAsset.zero

/-! ## URL parsing (package `net/url`) -/

/-- The fields of the Go struct `url.URL` that the crawler reads. -/
structure URL where
  Scheme : String
  Host : String
  deriving DecidableEq, Repr

/-- The loop of `getScheme` in `net/url`: `i` is the index of the byte under
inspection and `rawURL` the whole input.  The result is `none` for the error
"missing protocol scheme" and otherwise the scheme and what follows it. -/
def getSchemeLoop (rawURL : List Char) : Nat → List Char → Option (List Char × List Char)
  | _, [] => some ([], rawURL)
  | i, c :: rest =>
    if c.isAlpha then getSchemeLoop rawURL (i + 1) rest
    else if c.isDigit || c = '+' || c = '-' || c = '.' then
      if i = 0 then some ([], rawURL) else getSchemeLoop rawURL (i + 1) rest
    else if c = ':' then
      if i = 0 then none else some (rawURL.take i, rest)
    else some ([], rawURL)

/-- The function `getScheme` of `net/url`. -/
def getScheme (rawURL : List Char) : Option (List Char × List Char) :=
  getSchemeLoop rawURL 0 rawURL

/-- The function `validOptionalPort` of `net/url`, applied to what stands from
the last colon of the host on: the colon is followed by digits only. -/
def validOptionalPort (host : List Char) : Bool :=
  if host.contains ':' then (host.reverse.takeWhile (fun c => c ≠ ':')).all Char.isDigit
  else true

/-- The host of an authority, as `parseAuthority` of `net/url` finds it: what
follows the last `@`, refused when its port is not a number. -/
def parseAuthority (authority : List Char) : Option (List Char) :=
  let host := (authority.reverse.takeWhile (fun c => c ≠ '@')).reverse
  if validOptionalPort host then some host else none

/-- A model of `url.Parse` of the Go standard library, which is not part of the
repository, for the two fields the crawler reads.  It follows `Parse` and `parse`
of `net/url` step by step: the fragment is cut off at the first `#`; an input
with an ASCII control character is refused; `*` is a path; `getScheme` splits
off the scheme, which is lower-cased; the query is cut off at the first `?`; a
rest that does not begin with `/` is opaque when there is a scheme and is
refused when its first segment has a colon; a rest that begins with `//` (and,
without a scheme, not with `///`) carries an authority up to the next `/`, whose
host is stored as written, port included.  Percent-decoding and the character
checks of host, user information, path and fragment, and IP literals in
brackets, are not part of the model: it is used only on inputs without them. -/
def urlParse (rawURL : String) : Option URL :=
  let u := rawURL.data.takeWhile (fun c => c ≠ '#')
  if u.any (fun c => decide (c.toNat < 32) || decide (c.toNat = 127)) then none
  else if u = ['*'] then some ⟨"", ""⟩
  else
    match getScheme u with
    | none => none
    | some (scheme, rest0) =>
      let scheme := scheme.map Char.toLower
      let rest := rest0.takeWhile (fun c => c ≠ '?')
      if !(['/'].isPrefixOf rest) && scheme ≠ [] then some ⟨⟨scheme⟩, ""⟩
      else if !(['/'].isPrefixOf rest) && (rest.takeWhile (fun c => c ≠ '/')).contains ':' then
        none
      else if (decide (scheme ≠ []) || !(['/', '/', '/'].isPrefixOf rest))
          && ['/', '/'].isPrefixOf rest then
        match parseAuthority ((rest.drop 2).takeWhile (fun c => c ≠ '/')) with
        | none => none
        | some host => some ⟨⟨scheme⟩, ⟨host⟩⟩
      else some ⟨⟨scheme⟩, ""⟩

/-! ## The host filter (crawler.go, lines 60-68 and 103-110) -/

/-- The Go struct `Crawler`. -/
structure Crawler where
  RootDomain : String
  deriving DecidableEq, Repr

/-- The function `NewCrawler`. -/
def NewCrawler (rootDomain : String) : Crawler := ⟨rootDomain⟩

/-- The method `Crawler.shouldFollowUrl`.  The library function `url.Parse` is
the parameter `parse`, with `none` for a parse error. -/
def Crawler.shouldFollowUrl (parse : String → Option URL) (c : Crawler) (urlString : String) :
    Bool :=
  match parse urlString with
  | none => false
  | some url => decide (url.Host = c.RootDomain) && HasPrefix url.Scheme "http"

/-! ## The extractor (crawler.go, lines 132-172) -/

/-- The function `parseLinkHref`: the hrefs it sends on `linksChan` (none or
one) and the href it returns. -/
def parseLinkHref (token : Token) : List String × String :=
  if getHtmlAttribute token "href" ≠ "" then
    ([getHtmlAttribute token "href"], getHtmlAttribute token "href")
  else ([], "")

/-- The variables of the loop of `tokenizeAndCrawlElements`, with the hrefs
sent on `linksChan` so far. -/
structure Extracted where
  links : List String
  assets : List PageAsset
  newLinksFound : Nat
  deriving DecidableEq, Repr

/-- The body of the `StartTagToken` case of `tokenizeAndCrawlElements`: four
independent `if` statements, in program order. -/
def startTag (sitemap : Sitemap) (token : Token) (acc : Extracted) : Extracted :=
  let acc1 : Extracted :=
    if isTag token "a" then
      { acc with
        links := acc.links ++ (parseLinkHref token).1
        newLinksFound :=
          if (parseLinkHref token).2 ≠ "" ∧ sitemap.HasPage (parseLinkHref token).2 = false then
            acc.newLinksFound + 1
          else acc.newLinksFound }
    else acc
  let acc2 : Extracted :=
    if isStylesheetTag token then
      { acc1 with assets := acc1.assets ++ [parseAssetFromToken token "href" Stylesheet] }
    else acc1
  let acc3 : Extracted :=
    if isScriptTag token then
      { acc2 with assets := acc2.assets ++ [parseAssetFromToken token "src" Script] }
    else acc2
  if isTag token "img" then
    { acc3 with assets := acc3.assets ++ [parseAssetFromToken token "src" Image] }
  else acc3

/-- The loop of `tokenizeAndCrawlElements` over the tokens that the tokenizer
returns, in order.  The loop returns at the first `ErrorToken`; the end of the
list is the end of the input, where the tokenizer returns `ErrorToken`. -/
def tokenizeLoop (sitemap : Sitemap) : List Token → Extracted → Extracted
  | [], acc => acc
  | token :: rest, acc =>
    match token.Typ with
    | TokenType.StartTagToken => tokenizeLoop sitemap rest (startTag sitemap token acc)
    | TokenType.ErrorToken => acc
    | _ => tokenizeLoop sitemap rest acc

/-- The function `tokenizeAndCrawlElements`, on the token stream of the body
and a snapshot of the sitemap. -/
def tokenizeAndCrawlElements (body : List Token) (sitemap : Sitemap) : Extracted :=
  tokenizeLoop sitemap body ⟨[], [], 0⟩

/-! ## The page task and the event loop (crawler.go, lines 70-130) -/

/-- What a task sends to the loop of `CrawlWebsite`: a send on `linksChan`, on
`pageChan` or on `pageOkChan`. -/
inductive Event where
  | link (url : String)
  | page (p : Page)
  | pageOk
  deriving DecidableEq, Repr

/-- The function `crawlPage`, as the list of events it sends, in program order.
The result of `http.Get` is `none` for an error and otherwise the token stream
of the response body. -/
def crawlPage (url : String) (resp : Option (List Token)) (sitemap : Sitemap) : List Event :=
  match resp with
  | none => []
  | some body =>
    let r := tokenizeAndCrawlElements body sitemap
    r.links.map Event.link
      ++ (if r.newLinksFound = 0 then [Event.pageOk] else [])
      ++ [Event.page (NewPageWithAssets url r.assets)]

/-- The variables of the loop of `CrawlWebsite`, with the URLs for which
`go crawlPage` has been executed so far. -/
structure LoopState where
  sitemap : Sitemap
  pageOkCount : Nat
  spawned : List String
  deriving DecidableEq, Repr

/-- The variable `rootURL` of `CrawlWebsite`. -/
def Crawler.rootURL (c : Crawler) : String := "http://" ++ c.RootDomain

/-- The first `if` of the `linksChan` case of `CrawlWebsite`: a URL that begins
with `/` is appended to `rootURL`. -/
def Crawler.resolve (c : Crawler) (url : String) : String :=
  if HasPrefix url "/" then c.rootURL ++ url else url

/-- One pass through the `select` of `CrawlWebsite`, on the event received. -/
def Crawler.selectStep (parse : String → Option URL) (c : Crawler) (st : LoopState) :
    Event → LoopState
  | Event.link url =>
    let url := c.resolve url
    if c.shouldFollowUrl parse url && !st.sitemap.HasPage url then
      { st with spawned := st.spawned ++ [url] }
    else st
  | Event.page page =>
    if !st.sitemap.HasPage page.URL then { st with sitemap := st.sitemap.AddPage page }
    else st
  | Event.pageOk => { st with pageOkCount := st.pageOkCount + 1 }

/-- The `for` loop of `CrawlWebsite` on the events it receives, in order: it
runs while `pageOkCount <= len(sitemap.Pages)`.  When the events run out while
the condition holds the program waits in its `select`; the state reached is the
result. -/
def Crawler.eventLoop (parse : String → Option URL) (c : Crawler) :
    LoopState → List Event → LoopState
  | st, [] => st
  | st, ev :: rest =>
    if st.pageOkCount ≤ st.sitemap.Pages.length then
      c.eventLoop parse (c.selectStep parse st ev) rest
    else st

/-- The method `Crawler.CrawlWebsite` on the events its loop receives: the root
task is started, then the loop runs from the empty sitemap.  The result is the
final state of the loop, whose `sitemap` is what the method returns. -/
def Crawler.CrawlWebsite (parse : String → Option URL) (c : Crawler) (events : List Event) :
    LoopState :=
  c.eventLoop parse ⟨NewSitemap, 0, [c.rootURL]⟩ events

/-! ## The extractor as the specification words it -/

/-- The start tags of a document: the tokens of type `StartTagToken` before the
end of the input. -/
def documentStartTags (body : List Token) : List Token :=
  (body.takeWhile (fun t => decide (t.Typ ≠ TokenType.ErrorToken))).filter
    (fun t => decide (t.Typ = TokenType.StartTagToken))

/-- The asset of a start tag in the words of the specification: a stylesheet
asset with the href value for a `link` with rel equal to `stylesheet`, a script
asset with the src value for a `script` with a non-empty src, an image asset
with the src value for an `img`, and no asset for any other tag. -/
def specAsset (t : Token) : Option PageAsset :=
  if t.Data = "link" ∧ getHtmlAttribute t "rel" = "stylesheet" then
    some ⟨"stylesheet", getHtmlAttribute t "href"⟩
  else if t.Data = "script" ∧ getHtmlAttribute t "src" ≠ "" then
    some ⟨"script", getHtmlAttribute t "src"⟩
  else if t.Data = "img" then
    some ⟨"image", getHtmlAttribute t "src"⟩
  else none

/-- The token stream of the document
`<link rel="stylesheet" href="a.css"><script src="b.js"></script><img src="c.png">`. -/
def exampleDocument : List Token :=
  [⟨TokenType.StartTagToken, "link", [⟨"", "rel", "stylesheet"⟩, ⟨"", "href", "a.css"⟩]⟩,
   ⟨TokenType.StartTagToken, "script", [⟨"", "src", "b.js"⟩]⟩,
   ⟨TokenType.EndTagToken, "script", []⟩,
   ⟨TokenType.StartTagToken, "img", [⟨"", "src", "c.png"⟩]⟩]

/-! ## Lemmas on the page store -/

theorem hasPageLoop_iff_mem (url : String) (pages : List Page) :
    hasPageLoop url pages = true ↔ url ∈ pages.map Page.URL := by
  induction pages with
  | nil => simp [hasPageLoop]
  | cons page rest ih =>
    by_cases h : page.URL = url
    · simp [hasPageLoop, h]
    · have h' : ¬ url = page.URL := fun e => h e.symm
      simp [hasPageLoop, h, h', ih]

theorem hasPage_false_iff (s : Sitemap) (url : String) :
    s.HasPage url = false ↔ url ∉ s.Pages.map Page.URL := by
  rw [← hasPageLoop_iff_mem]
  simp [Sitemap.HasPage]

/-! ## Attribute lookup -/

theorem getHtmlAttributeLoop_eq (name : String) (attrs : List Attribute) (value : String) :
    getHtmlAttributeLoop name value attrs
      = ((attrs.filter (fun a => decide (a.Key = name))).getLast?.map Attribute.Val).getD value := by
  induction attrs generalizing value with
  | nil => simp [getHtmlAttributeLoop]
  | cons a rest ih =>
    by_cases h : a.Key = name
    · simp only [getHtmlAttributeLoop, h, if_true, decide_True, List.filter_cons_of_pos, ih]
      cases hl : (rest.filter (fun a => decide (a.Key = name))).getLast? with
      | none =>
        have hnil : rest.filter (fun a => decide (a.Key = name)) = [] := by
          simpa using hl
        simp [hnil]
      | some b =>
        have hne : rest.filter (fun a => decide (a.Key = name)) ≠ [] := by
          intro e
          simp [e] at hl
        obtain ⟨x, xs, hx⟩ := List.exists_cons_of_ne_nil hne
        rw [hx] at hl ⊢
        rw [List.getLast?_cons_cons, hl]
        rfl
    · simp [getHtmlAttributeLoop, h, ih]

/-- C10 -- Attribute lookup, last occurrence wins: `getHtmlAttribute t n` is the
value of the last attribute of `t` whose key is `n`, and the empty string when no
attribute of `t` has key `n`. -/
theorem getHtmlAttribute_last_wins (t : Token) (n : String) :
    getHtmlAttribute t n
      = ((t.Attr.filter (fun a => decide (a.Key = n))).getLast?.map Attribute.Val).getD "" :=
  getHtmlAttributeLoop_eq n t.Attr ""

/-! ## The page store -/

/-- C7 (counterexample) -- `AddPage` stores a page whose URL the sitemap already
has a second time. -/
theorem addPage_stores_duplicate :
    (Sitemap.mk [⟨"http://example.com", []⟩]).HasPage "http://example.com" = true
      ∧ ((Sitemap.mk [⟨"http://example.com", []⟩]).AddPage ⟨"http://example.com", []⟩).Pages
          ≠ [⟨"http://example.com", []⟩] := by
  decide

/-- C7 (amended) -- `AddPage` appends the page at the end and leaves the earlier
pages unchanged, whether or not the sitemap has a page of that URL; duplicates
are kept out by the caller: on a page-completed event the loop of `CrawlWebsite`
leaves the pages unchanged when `HasPage` is true and appends otherwise. -/
theorem addPage_appends (s : Sitemap) (p : Page) (parse : String → Option URL) (c : Crawler)
    (st : LoopState) :
    (s.AddPage p).Pages = s.Pages ++ [p]
      ∧ (c.selectStep parse st (Event.page p)).sitemap.Pages
          = if st.sitemap.HasPage p.URL = true then st.sitemap.Pages
            else st.sitemap.Pages ++ [p] := by
  refine ⟨rfl, ?_⟩
  cases h : st.sitemap.HasPage p.URL <;> simp [Crawler.selectStep, h, Sitemap.AddPage]

/-! ## Canonical URLs -/

theorem trimRight_slash_data (url : String) :
    (TrimRight url "/").data = (url.data.reverse.dropWhile (fun c => c == '/')).reverse := by
  have hc : (fun c : Char => ("/" : String).data.contains c) = (fun c => c == '/') := by
    funext c
    show ['/'].contains c = (c == '/')
    cases h : c == '/' <;> simp [List.contains, List.elem, h]
  simp only [TrimRight, hc]

theorem trimRight_slash_append (url : String) :
    ∃ k, url.data = (TrimRight url "/").data ++ List.replicate k '/' := by
  rw [trimRight_slash_data]
  refine ⟨(url.data.reverse.takeWhile (fun c => c == '/')).length, ?_⟩
  have hrep : url.data.reverse.takeWhile (fun c => c == '/')
      = List.replicate (url.data.reverse.takeWhile (fun c => c == '/')).length '/' := by
    rw [List.eq_replicate_iff]
    refine ⟨rfl, ?_⟩
    intro b hb
    simpa using List.mem_takeWhile_imp hb
  have h := List.takeWhile_append_dropWhile (fun c => c == '/') url.data.reverse
  have h2 := congrArg List.reverse h
  rw [List.reverse_append, List.reverse_reverse, hrep, List.reverse_replicate] at h2
  exact h2.symm

theorem trimRight_slash_last (url : String) :
    (TrimRight url "/").data.getLast? ≠ some '/' := by
  rw [trimRight_slash_data, List.getLast?_reverse]
  intro h
  have := List.head?_dropWhile_not (fun c => c == '/') url.data.reverse
  rw [h] at this
  simp at this

theorem trimRight_slash_fixed (url : String) :
    TrimRight url "/" = url ↔ url.data.getLast? ≠ some '/' := by
  constructor
  · intro h
    have := trimRight_slash_last url
    rwa [h] at this
  · intro h
    obtain ⟨k, hk⟩ := trimRight_slash_append url
    cases k with
    | zero =>
      simp only [List.replicate_zero, List.append_nil] at hk
      exact String.ext hk.symm
    | succ k =>
      exfalso
      apply h
      rw [hk, List.replicate_succ', ← List.append_assoc]
      simp

/-- C8 (counterexample) -- a URL that ends in two slashes loses both, not only
the final character. -/
theorem newPageWithAssets_strips_all_slashes :
    (NewPageWithAssets "http://example.com//" []).URL = "http://example.com"
      ∧ (NewPageWithAssets "http://example.com//" []).URL ≠ "http://example.com/" := by
  decide

/-- C8 (amended) -- `NewPageWithAssets url assets` has the assets `assets`, and
its URL is `url` with all its trailing slashes stripped and nothing else changed:
`url` is the result URL followed by slashes only, the result URL does not end in
a slash, and it is `url` itself exactly when `url` does not end in a slash. -/
theorem newPageWithAssets_canonical (url : String) (assets : List PageAsset) :
    (NewPageWithAssets url assets).Assets = assets
      ∧ (∃ k, url.data = (NewPageWithAssets url assets).URL.data ++ List.replicate k '/')
      ∧ (NewPageWithAssets url assets).URL.data.getLast? ≠ some '/'
      ∧ ((NewPageWithAssets url assets).URL = url ↔ url.data.getLast? ≠ some '/') :=
  ⟨rfl, trimRight_slash_append url, trimRight_slash_last url, trimRight_slash_fixed url⟩

/-! ## The host filter -/

/-- C1 (counterexample) -- with target host `example.com` the filter accepts
`httpfoo://example.com/x`, whose scheme is neither `http` nor `https`. -/
theorem shouldFollowUrl_accepts_httpfoo :
    urlParse "httpfoo://example.com/x" = some ⟨"httpfoo", "example.com"⟩
      ∧ (NewCrawler "example.com").shouldFollowUrl urlParse "httpfoo://example.com/x" = true
      ∧ ("httpfoo" : String) ≠ "http" ∧ ("httpfoo" : String) ≠ "https" := by
  decide

/-- C1 (amended) -- Host filter: for every URL string `u` and every crawler,
`shouldFollowUrl u` is true if and only if `u` parses, its parsed host is the
target host exactly and its parsed scheme begins with `http`; a URL that fails
to parse yields false.  With target host `example.com` it accepts
`https://example.com/x` and rejects `http://other.com/x` and
`ftp://example.com/x`. -/
theorem shouldFollowUrl_iff (parse : String → Option URL) (c : Crawler) (u : String) :
    (c.shouldFollowUrl parse u = true
        ↔ ∃ url, parse u = some url ∧ url.Host = c.RootDomain
            ∧ ("http" : String).data <+: url.Scheme.data)
      ∧ (NewCrawler "example.com").shouldFollowUrl urlParse "https://example.com/x" = true
      ∧ (NewCrawler "example.com").shouldFollowUrl urlParse "http://other.com/x" = false
      ∧ (NewCrawler "example.com").shouldFollowUrl urlParse "ftp://example.com/x" = false := by
  refine ⟨?_, by decide, by decide, by decide⟩
  unfold Crawler.shouldFollowUrl
  cases h : parse u with
  | none => simp
  | some url => simp [HasPrefix]

/-! ## Uniqueness of the recorded URLs -/

theorem selectStep_nodup (parse : String → Option URL) (c : Crawler) (st : LoopState)
    (ev : Event) (h : (st.sitemap.Pages.map Page.URL).Nodup) :
    ((c.selectStep parse st ev).sitemap.Pages.map Page.URL).Nodup := by
  cases ev with
  | link url =>
    simp only [Crawler.selectStep]
    split <;> exact h
  | page p =>
    simp only [Crawler.selectStep]
    cases hp : st.sitemap.HasPage p.URL with
    | true => simpa using h
    | false =>
      have hnot := (hasPage_false_iff st.sitemap p.URL).mp hp
      simp only [Bool.not_false, if_true, Sitemap.AddPage, List.map_append, List.map_cons,
        List.map_nil]
      rw [List.nodup_append]
      refine ⟨h, List.nodup_singleton _, ?_⟩
      intro a ha hb
      rw [List.mem_singleton] at hb
      exact hnot (hb ▸ ha)
  | pageOk => exact h

theorem eventLoop_nodup (parse : String → Option URL) (c : Crawler) (events : List Event)
    (st : LoopState) (h : (st.sitemap.Pages.map Page.URL).Nodup) :
    ((c.eventLoop parse st events).sitemap.Pages.map Page.URL).Nodup := by
  induction events generalizing st with
  | nil => exact h
  | cons ev rest ih =>
    simp only [Crawler.eventLoop]
    split
    · exact ih _ (selectStep_nodup parse c st ev h)
    · exact h

/-- C3 -- Uniqueness: for every finite sequence of discovered-link,
page-completed and page-ok events consumed by the loop of `CrawlWebsite` from the
empty sitemap, no two pages of the resulting sitemap have the same URL. -/
theorem crawlWebsite_urls_nodup (parse : String → Option URL) (c : Crawler)
    (events : List Event) :
    ((c.CrawlWebsite parse events).sitemap.Pages.map Page.URL).Nodup :=
  eventLoop_nodup parse c events _ (by simp [NewSitemap])

/-! ## The page task -/

theorem count_pageOk_links (links : List String) :
    (links.map Event.link).count Event.pageOk = 0 := by
  rw [List.count_eq_zero]
  intro h
  obtain ⟨u, _, hu⟩ := List.mem_map.mp h
  cases hu

/-- C5 (counterexample) -- a task whose `http.Get` fails sends no page-ok event,
and neither does a task whose page has a link that is not recorded yet. -/
theorem crawlPage_pageOk_missing :
    (crawlPage "http://example.com" none NewSitemap).count Event.pageOk = 0
      ∧ (crawlPage "http://example.com"
          (some [⟨TokenType.StartTagToken, "a", [⟨"", "href", "/about"⟩]⟩]) NewSitemap)
          = [Event.link "/about", Event.page ⟨"http://example.com", []⟩]
      ∧ (crawlPage "http://example.com"
          (some [⟨TokenType.StartTagToken, "a", [⟨"", "href", "/about"⟩]⟩]) NewSitemap).count
            Event.pageOk = 0 := by
  decide

/-- C5 (amended) -- for every fetch result, token sequence and sitemap snapshot,
`crawlPage` sends at most one page-ok event, and a task whose page is fetched
sends exactly one when no new link was found and none when new links were
found. -/
theorem crawlPage_pageOk_count (url : String) (resp : Option (List Token)) (body : List Token)
    (sitemap : Sitemap) :
    (crawlPage url resp sitemap).count Event.pageOk ≤ 1
      ∧ (crawlPage url (some body) sitemap).count Event.pageOk
        = if (tokenizeAndCrawlElements body sitemap).newLinksFound = 0 then 1 else 0 := by
  have hsome : ∀ b : List Token, (crawlPage url (some b) sitemap).count Event.pageOk
      = if (tokenizeAndCrawlElements b sitemap).newLinksFound = 0 then 1 else 0 := by
    intro b
    simp only [crawlPage, List.count_append, count_pageOk_links]
    split <;> simp [List.count_cons]
  refine ⟨?_, hsome body⟩
  cases resp with
  | none => simp [crawlPage]
  | some b =>
    rw [hsome b]
    split <;> simp

/-! ## Spawning from discovered links -/

/-- C4 (counterexample) -- the root page of `example.com` has two anchors with
the href `http://example.com/a`, which the filter accepts and the empty sitemap
does not record; the loop starts two tasks for it. -/
theorem crawlWebsite_spawns_twice :
    (NewCrawler "example.com").shouldFollowUrl urlParse "http://example.com/a" = true
      ∧ crawlPage "http://example.com"
          (some [⟨TokenType.StartTagToken, "a", [⟨"", "href", "http://example.com/a"⟩]⟩,
                 ⟨TokenType.StartTagToken, "a", [⟨"", "href", "http://example.com/a"⟩]⟩])
          NewSitemap
        = [Event.link "http://example.com/a", Event.link "http://example.com/a",
           Event.page ⟨"http://example.com", []⟩]
      ∧ ((NewCrawler "example.com").CrawlWebsite urlParse
          [Event.link "http://example.com/a", Event.link "http://example.com/a",
           Event.page ⟨"http://example.com", []⟩]).spawned
        = ["http://example.com", "http://example.com/a", "http://example.com/a"] := by
  decide

theorem selectStep_link (parse : String → Option URL) (c : Crawler) (st : LoopState)
    (u : String) :
    c.selectStep parse st (Event.link u)
      = { st with
          spawned := st.spawned ++
            (if c.shouldFollowUrl parse (c.resolve u) = true
                ∧ st.sitemap.HasPage (c.resolve u) = false then [c.resolve u] else []) } := by
  cases ha : c.shouldFollowUrl parse (c.resolve u) <;>
    cases hr : st.sitemap.HasPage (c.resolve u) <;>
    simp [Crawler.selectStep, ha, hr]

theorem eventLoop_stopped (parse : String → Option URL) (c : Crawler) (st : LoopState)
    (events : List Event) (h : ¬ st.pageOkCount ≤ st.sitemap.Pages.length) :
    c.eventLoop parse st events = st := by
  cases events with
  | nil => rfl
  | cons ev rest => simp [Crawler.eventLoop, h]

theorem eventLoop_append (parse : String → Option URL) (c : Crawler) (xs ys : List Event)
    (st : LoopState) :
    c.eventLoop parse st (xs ++ ys) = c.eventLoop parse (c.eventLoop parse st xs) ys := by
  induction xs generalizing st with
  | nil => rfl
  | cons x rest ih =>
    by_cases h : st.pageOkCount ≤ st.sitemap.Pages.length
    · simp only [List.cons_append, Crawler.eventLoop, h, if_true]
      exact ih _
    · rw [eventLoop_stopped parse c st _ h, eventLoop_stopped parse c st _ h,
        eventLoop_stopped parse c st _ h]

theorem eventLoop_single (parse : String → Option URL) (c : Crawler) (st : LoopState)
    (ev : Event) :
    c.eventLoop parse st [ev]
      = if st.pageOkCount ≤ st.sitemap.Pages.length then c.selectStep parse st ev else st := by
  simp [Crawler.eventLoop]

/-- C4 (amended) -- the loop of `CrawlWebsite` checks a discovered link against
the host filter and the pages recorded at that moment only; it keeps no set of
pending URLs.  A discovered-link event that the loop consumes starts exactly one
`crawlPage` task for its URL when the filter accepts the URL and no page of that
URL is recorded, and starts nothing otherwise; it changes neither the sitemap nor
`pageOkCount`.  So two discovered-link events with the same href `u`, consumed
one right after the other by the running loop, start two tasks for `u` when `u`
is accepted and not recorded, and none otherwise; with other events between
them, the second starts a task exactly when the loop still runs and `u` is
accepted and still not recorded: with the page of `/a` recorded between two
links to `/a` one task is started for it, and two links to another host start
none. -/
theorem eventLoop_spawns_per_link (parse : String → Option URL) (c : Crawler) (st : LoopState)
    (u : String) (mid : List Event) :
    (c.selectStep parse st (Event.link u)).spawned
        = st.spawned ++
          (if c.shouldFollowUrl parse (c.resolve u) = true
              ∧ st.sitemap.HasPage (c.resolve u) = false then [c.resolve u] else [])
      ∧ (c.selectStep parse st (Event.link u)).sitemap = st.sitemap
      ∧ (c.selectStep parse st (Event.link u)).pageOkCount = st.pageOkCount
      ∧ (c.eventLoop parse st [Event.link u, Event.link u]).spawned
        = st.spawned ++
          (if st.pageOkCount ≤ st.sitemap.Pages.length
              ∧ c.shouldFollowUrl parse (c.resolve u) = true
              ∧ st.sitemap.HasPage (c.resolve u) = false then [c.resolve u, c.resolve u]
            else [])
      ∧ (c.eventLoop parse st (Event.link u :: (mid ++ [Event.link u]))).spawned
        = (c.eventLoop parse st (Event.link u :: mid)).spawned ++
          (if (c.eventLoop parse st (Event.link u :: mid)).pageOkCount
                ≤ (c.eventLoop parse st (Event.link u :: mid)).sitemap.Pages.length
              ∧ c.shouldFollowUrl parse (c.resolve u) = true
              ∧ (c.eventLoop parse st (Event.link u :: mid)).sitemap.HasPage (c.resolve u)
                  = false then [c.resolve u]
            else [])
      ∧ ((NewCrawler "example.com").CrawlWebsite urlParse
          [Event.link "/a", Event.page ⟨"http://example.com/a", []⟩, Event.link "/a"]).spawned
        = ["http://example.com", "http://example.com/a"]
      ∧ ((NewCrawler "example.com").CrawlWebsite urlParse
          [Event.link "http://other.com/x", Event.link "http://other.com/x"]).spawned
        = ["http://example.com"] := by
  refine ⟨?_, ?_, ?_, ?_, ?_, by decide, by decide⟩
  · rw [selectStep_link]
  · rw [selectStep_link]
  · rw [selectStep_link]
  · by_cases hloop : st.pageOkCount ≤ st.sitemap.Pages.length
    · by_cases hok : c.shouldFollowUrl parse (c.resolve u) = true
          ∧ st.sitemap.HasPage (c.resolve u) = false
      · simp [Crawler.eventLoop, selectStep_link, hloop, hok.1, hok.2]
      · have hok' : ¬ (st.pageOkCount ≤ st.sitemap.Pages.length
            ∧ c.shouldFollowUrl parse (c.resolve u) = true
            ∧ st.sitemap.HasPage (c.resolve u) = false) := fun h => hok h.2
        rw [if_neg hok']
        simp [Crawler.eventLoop, selectStep_link, hloop, hok]
    · have hok' : ¬ (st.pageOkCount ≤ st.sitemap.Pages.length
          ∧ c.shouldFollowUrl parse (c.resolve u) = true
          ∧ st.sitemap.HasPage (c.resolve u) = false) := fun h => hloop h.1
      rw [if_neg hok']
      simp [Crawler.eventLoop, hloop]
  · have happ : Event.link u :: (mid ++ [Event.link u])
        = (Event.link u :: mid) ++ [Event.link u] := rfl
    rw [happ, eventLoop_append, eventLoop_single]
    generalize c.eventLoop parse st (Event.link u :: mid) = st2
    by_cases hloop : st2.pageOkCount ≤ st2.sitemap.Pages.length
    · by_cases hok : c.shouldFollowUrl parse (c.resolve u) = true
          ∧ st2.sitemap.HasPage (c.resolve u) = false
      · simp [selectStep_link, hloop, hok.1, hok.2]
      · have hok' : ¬ (st2.pageOkCount ≤ st2.sitemap.Pages.length
            ∧ c.shouldFollowUrl parse (c.resolve u) = true
            ∧ st2.sitemap.HasPage (c.resolve u) = false) := fun h => hok h.2
        rw [if_neg hok']
        simp [selectStep_link, hloop, hok]
    · have hok' : ¬ (st2.pageOkCount ≤ st2.sitemap.Pages.length
          ∧ c.shouldFollowUrl parse (c.resolve u) = true
          ∧ st2.sitemap.HasPage (c.resolve u) = false) := fun h => hloop h.1
      rw [if_neg hok']
      simp [hloop]

/-! ## The extractor -/

theorem startTag_assets (sitemap : Sitemap) (t : Token) (acc : Extracted)
    (hlink : t.Data = "link" → getHtmlAttribute t "rel" = "stylesheet"
      → getHtmlAttribute t "href" ≠ "")
    (himg : t.Data = "img" → getHtmlAttribute t "src" ≠ "") :
    (startTag sitemap t acc).assets = acc.assets ++ (specAsset t).toList := by
  by_cases h1 : t.Data = "link"
  · by_cases hr : getHtmlAttribute t "rel" = "stylesheet"
    · have hh := hlink h1 hr
      simp [startTag, specAsset, isStylesheetTag, isScriptTag, isTag, parseAssetFromToken,
        Stylesheet, h1, hr, hh]
    · simp [startTag, specAsset, isStylesheetTag, isScriptTag, isTag, h1, hr]
  · by_cases h2 : t.Data = "script"
    · by_cases hs : getHtmlAttribute t "src" = ""
      · simp [startTag, specAsset, isStylesheetTag, isScriptTag, isTag, h2, hs]
      · simp [startTag, specAsset, isStylesheetTag, isScriptTag, isTag, parseAssetFromToken,
          Script, h2, hs]
    · by_cases h3 : t.Data = "img"
      · have hh := himg h3
        simp [startTag, specAsset, isStylesheetTag, isScriptTag, isTag, parseAssetFromToken,
          Image, h3, hh]
      · by_cases h4 : t.Data = "a" <;>
          simp [startTag, specAsset, isStylesheetTag, isScriptTag, isTag, h1, h2, h3, h4]

theorem tokenizeLoop_assets (sitemap : Sitemap) (body : List Token) (acc : Extracted)
    (hlink : ∀ t ∈ documentStartTags body, t.Data = "link"
      → getHtmlAttribute t "rel" = "stylesheet" → getHtmlAttribute t "href" ≠ "")
    (himg : ∀ t ∈ documentStartTags body, t.Data = "img" → getHtmlAttribute t "src" ≠ "") :
    (tokenizeLoop sitemap body acc).assets
      = acc.assets ++ (documentStartTags body).filterMap specAsset := by
  induction body generalizing acc with
  | nil => simp [tokenizeLoop, documentStartTags]
  | cons t rest ih =>
    cases hty : t.Typ with
    | StartTagToken =>
      have htags : documentStartTags (t :: rest) = t :: documentStartTags rest := by
        simp [documentStartTags, hty]
      rw [htags] at hlink himg ⊢
      have hrest := ih (startTag sitemap t acc)
        (fun x hx => hlink x (List.mem_cons_of_mem _ hx))
        (fun x hx => himg x (List.mem_cons_of_mem _ hx))
      have hhead := startTag_assets sitemap t acc (hlink t (List.mem_cons_self _ _))
        (himg t (List.mem_cons_self _ _))
      simp only [tokenizeLoop, hty, hrest, hhead, List.filterMap_cons, List.append_assoc]
      cases specAsset t <;> simp
    | ErrorToken => simp [tokenizeLoop, documentStartTags, hty]
    | TextToken | EndTagToken | SelfClosingTagToken | CommentToken | DoctypeToken =>
      have htags : documentStartTags (t :: rest) = documentStartTags rest := by
        simp [documentStartTags, hty]
      rw [htags] at hlink himg ⊢
      simpa [tokenizeLoop, hty] using ih acc hlink himg

/-- C6 -- Asset extraction order: for every token sequence in which each `link`
start tag with rel `stylesheet` has a non-empty href and each `img` start tag has
a non-empty src, `tokenizeAndCrawlElements` returns exactly one asset per
qualifying start tag, in document order: a stylesheet asset with the href value
for a `link` with rel `stylesheet`, a script asset with the src value for a
`script` with a non-empty src, an image asset with the src value for an `img`,
and nothing for any other tag; the attribute values are stored as they are. -/
theorem tokenizeAndCrawlElements_assets (body : List Token) (sitemap : Sitemap)
    (hlink : ∀ t ∈ documentStartTags body, t.Data = "link"
      → getHtmlAttribute t "rel" = "stylesheet" → getHtmlAttribute t "href" ≠ "")
    (himg : ∀ t ∈ documentStartTags body, t.Data = "img" → getHtmlAttribute t "src" ≠ "") :
    (tokenizeAndCrawlElements body sitemap).assets
      = (documentStartTags body).filterMap specAsset := by
  simpa [tokenizeAndCrawlElements] using tokenizeLoop_assets sitemap body ⟨[], [], 0⟩ hlink himg

theorem tokenizeAndCrawlElements_assets_witness :
    (∀ t ∈ documentStartTags exampleDocument, t.Data = "link"
        → getHtmlAttribute t "rel" = "stylesheet" → getHtmlAttribute t "href" ≠ "")
      ∧ (∀ t ∈ documentStartTags exampleDocument, t.Data = "img"
        → getHtmlAttribute t "src" ≠ "")
      ∧ (tokenizeAndCrawlElements exampleDocument NewSitemap).assets
        = [⟨Stylesheet, "a.css"⟩, ⟨Script, "b.js"⟩, ⟨Image, "c.png"⟩] :=
  ⟨by decide, by decide,
    (tokenizeAndCrawlElements_assets exampleDocument NewSitemap (by decide) (by decide)).trans
      (by decide)⟩

/-- C9 (the code at the failing inputs) -- an `img` start tag without src and a
`link` start tag with rel `stylesheet` without href each put the zero
`PageAsset` in the result, whose kind is the empty string and so none of
stylesheet, image and script. -/
theorem tokenizeAndCrawlElements_zero_asset :
    (tokenizeAndCrawlElements [⟨TokenType.StartTagToken, "img", []⟩] NewSitemap).assets
        = [⟨"", ""⟩]
      ∧ (tokenizeAndCrawlElements
          [⟨TokenType.StartTagToken, "link", [⟨"", "rel", "stylesheet"⟩]⟩] NewSitemap).assets
        = [⟨"", ""⟩]
      ∧ (tokenizeAndCrawlElements
          [⟨TokenType.StartTagToken, "script", []⟩] NewSitemap).assets = []
      ∧ ("" : PageAssetType) ≠ Stylesheet ∧ ("" : PageAssetType) ≠ Image
      ∧ ("" : PageAssetType) ≠ Script := by
  decide

/-! ## The single-page crawl -/

theorem startTag_no_anchor (sitemap : Sitemap) (t : Token) (acc : Extracted)
    (h : t.Data ≠ "a") :
    (startTag sitemap t acc).links = acc.links
      ∧ (startTag sitemap t acc).newLinksFound = acc.newLinksFound := by
  simp only [startTag, isTag, h, decide_False, Bool.false_eq_true, if_false]
  constructor <;> (repeat' split) <;> rfl

theorem tokenizeLoop_no_anchor (sitemap : Sitemap) (body : List Token) (acc : Extracted)
    (h : ∀ t ∈ body, t.Data ≠ "a") :
    (tokenizeLoop sitemap body acc).links = acc.links
      ∧ (tokenizeLoop sitemap body acc).newLinksFound = acc.newLinksFound := by
  induction body generalizing acc with
  | nil => simp [tokenizeLoop]
  | cons t rest ih =>
    have hrest : ∀ x ∈ rest, x.Data ≠ "a" := fun x hx => h x (List.mem_cons_of_mem _ hx)
    have ht := startTag_no_anchor sitemap t acc (h t (List.mem_cons_self _ _))
    cases hty : t.Typ with
    | StartTagToken =>
      have hr := ih (startTag sitemap t acc) hrest
      simp only [tokenizeLoop, hty]
      exact ⟨hr.1.trans ht.1, hr.2.trans ht.2⟩
    | ErrorToken => simp [tokenizeLoop, hty]
    | TextToken | EndTagToken | SelfClosingTagToken | CommentToken | DoctypeToken =>
      simpa [tokenizeLoop, hty] using ih acc hrest

/-- C2 (the code on a root page without anchors) -- when the root page is
fetched and its body has no anchor tag, the root task sends the page-ok signal
and then the page; the loop of `CrawlWebsite` consumes the signal, its condition
`pageOkCount <= len(sitemap.Pages)` then fails with the page unread, and the
sitemap returned has no page.  No task other than the root one is started. -/
theorem crawlWebsite_single_page (parse : String → Option URL) (c : Crawler)
    (body : List Token) (snapshot : Sitemap) (h : ∀ t ∈ body, t.Data ≠ "a") :
    crawlPage c.rootURL (some body) snapshot
        = [Event.pageOk,
           Event.page
            (NewPageWithAssets c.rootURL (tokenizeAndCrawlElements body snapshot).assets)]
      ∧ c.CrawlWebsite parse (crawlPage c.rootURL (some body) snapshot)
        = ⟨⟨[]⟩, 1, [c.rootURL]⟩ := by
  have hno := tokenizeLoop_no_anchor snapshot body ⟨[], [], 0⟩ h
  have hev : crawlPage c.rootURL (some body) snapshot
      = [Event.pageOk,
         Event.page
          (NewPageWithAssets c.rootURL (tokenizeAndCrawlElements body snapshot).assets)] := by
    simp [crawlPage, tokenizeAndCrawlElements, hno.1, hno.2]
  refine ⟨hev, ?_⟩
  rw [hev]
  simp [Crawler.CrawlWebsite, Crawler.eventLoop, Crawler.selectStep, NewSitemap]

theorem crawlWebsite_single_page_witness :
    (∀ t ∈ exampleDocument, t.Data ≠ "a")
      ∧ (NewCrawler "example.com").CrawlWebsite urlParse
          (crawlPage (NewCrawler "example.com").rootURL (some exampleDocument) NewSitemap)
        = ⟨⟨[]⟩, 1, ["http://example.com"]⟩ :=
  ⟨by decide,
    (crawlWebsite_single_page urlParse (NewCrawler "example.com") exampleDocument NewSitemap
      (by decide)).2⟩

end GoWebCrawler
